import Mathlib

/-!
Verification of the SSF wire protocol (`protocol/wire.go`): a shallow
embedding of the frame codec, the message decoder with its normalization
rules, the message encoder, the scratch-buffer pool discipline, and the
error taxonomy, together with theorems settling the specification's
claims against the embedded code.

Bytes are modelled as `Nat`; an `io.Reader` is modelled as a list of
read events (each event is one `Read` call's outcome: the bytes it
delivers and an optional error), and an `io.Writer` as a list of write
events plus the accumulated output bytes.
-/

namespace Wire

/-- One metric sample carried inside a span.  The Go `ssf.SSFSample`
has further fields that are opaque to the wire layer; the model keeps a
name, a value, and the sample rate (the only field this code touches). -/
structure SSFSample where
  name : String
  value : Int
  sampleRate : Rat
deriving DecidableEq, Repr

/-- The `ssf.SSFSpan` record, restricted to the fields the wire layer
reads or writes.  `Tags` is `Option` because a Go map can be `nil`,
which the normalization step distinguishes from an empty map. -/
structure SSFSpan where
  Id : Int
  TraceId : Int
  StartTimestamp : Int
  EndTimestamp : Int
  Name : String
  Tags : Option (List (String × String))
  Metrics : List SSFSample
deriving DecidableEq, Repr

/-- A parsed SSF message (`protocol.Message`), wrapping one span. -/
structure Message where
  span : SSFSpan
deriving DecidableEq, Repr

/-- The error payload of `protocol.InvalidTrace`, carrying the
offending span. -/
structure InvalidTrace where
  span : SSFSpan
deriving DecidableEq, Repr

/-- I/O errors surfaced by the stream, distinguishing `io.EOF` and
`io.ErrUnexpectedEOF` from all other errors. -/
inductive IOErr where
  | eof
  | unexpectedEOF
  | other (msg : String)
deriving DecidableEq, Repr

/-- `MaxSSFPacketLength`: the maximum length of an SSF packet (16MB). -/
def MaxSSFPacketLength : Nat := 16 * 1024 * 1024

/-- `SSFFrameLength`: 1 version byte plus 4 length bytes. -/
def SSFFrameLength : Nat := 1 + 4

/-- The only supported frame version. -/
def version0 : Nat := 0

/-- A `proto.Buffer` scratch buffer: it holds accumulated bytes
(`Marshal` appends to it; `Reset` empties it). -/
structure PBuf where
  buf : List Nat
deriving DecidableEq, Repr

/-- The `sync.Pool` of scratch buffers, modelled as a free list.
`poolGet` on an empty pool runs the pool's `New` function, which
returns a fresh empty `proto.Buffer`. -/
abbrev Pool := List PBuf

/-- `pbufPool.Get()`: take a buffer from the pool, or a fresh empty one
when the pool is empty. -/
def poolGet : Pool → PBuf × Pool
  | [] => (⟨[]⟩, [])
  | b :: rest => (b, rest)

/-- `pbufPool.Put(b)`: return a buffer to the pool. -/
def poolPut (b : PBuf) (p : Pool) : Pool := b :: p

/-- One `Read` call's outcome on the stream: the bytes the call
delivers (truncated to the requested count) and the error it reports
alongside them, if any. -/
structure ReadEvent where
  bs : List Nat
  err : Option IOErr
deriving DecidableEq, Repr

/-- `io.ReadFull` / `io.ReadAtLeast` over the event stream: loop while
fewer than `need` bytes have accumulated and no error was reported; an
exhausted stream reads as `(0, io.EOF)`.  After the loop, an error is
dropped when enough bytes arrived, and a bare `io.EOF` after a partial
read becomes `io.ErrUnexpectedEOF`. -/
def readFull (events : List ReadEvent) (acc : List Nat) (need : Nat) :
    List Nat × Option IOErr × List ReadEvent :=
  if acc.length ≥ need then (acc, none, events)
  else
    match events with
    | [] =>
      if acc.length = 0 then (acc, some .eof, [])
      else (acc, some .unexpectedEOF, [])
    | e :: rest =>
      let acc' := acc ++ e.bs.take (need - acc.length)
      match e.err with
      | none => readFull rest acc' need
      | some err =>
        if acc'.length ≥ need then (acc', none, rest)
        else if acc'.length = 0 then (acc', some err, rest)
        else
          match err with
          | .eof => (acc', some .unexpectedEOF, rest)
          | _ => (acc', some err, rest)

/-- `readFrame`'s accumulation loop: each iteration issues one `Read`;
if the read reports an error, return an empty slice and that error
(discarding everything accumulated, including bytes delivered alongside
the error); otherwise append the delivered bytes and stop once exactly
`length` bytes have been read. -/
def readFrameAux (events : List ReadEvent) (length : Nat) (acc : List Nat) :
    List Nat × Option IOErr × List ReadEvent :=
  match events with
  | [] => ([], some .eof, [])
  | e :: rest =>
    match e.err with
    | some err => ([], some err, rest)
    | none =>
      let acc' := acc ++ e.bs.take (length - acc.length)
      if acc'.length = length then (acc', none, rest)
      else readFrameAux rest length acc'

/-- `readFrame(in, length)`: read exactly `length` payload bytes. -/
def readFrame (events : List ReadEvent) (length : Nat) :
    List Nat × Option IOErr × List ReadEvent :=
  readFrameAux events length []

/-- Big-endian decoding of the 4-byte length field, as done by
`binary.Read(in, binary.BigEndian, &length)`. -/
def beDecode (bs : List Nat) : Nat := bs.foldl (fun a b => a * 256 + b) 0

/-- Big-endian encoding of a 32-bit length, as done by
`binary.Write(out, binary.BigEndian, uint32(n))`. -/
def be32 (n : Nat) : List Nat :=
  [n / 2 ^ 24 % 256, n / 2 ^ 16 % 256, n / 2 ^ 8 % 256, n % 256]

/-- First-match tag lookup: the embedding of ranging over the Go `Tags`
map looking for a key (map keys are unique, so the first match is the
only match). -/
def tagLookup (k : String) : List (String × String) → Option String
  | [] => none
  | (k', v) :: rest => if k' = k then some v else tagLookup k rest

/-- `delete(tags, k)`: remove the entry with the given key. -/
def tagErase (k : String) (tags : List (String × String)) :
    List (String × String) :=
  tags.filter (fun p => p.1 ≠ k)

/-- The normalization step of `ParseSSF`, applied after a successful
unmarshal: (1) a nil `Tags` map becomes empty; (2) when `Name` is
empty, a `"name"` tag backfills it and the `"name"` key is deleted;
(3) zero sample rates become 1. -/
def normalize (s : SSFSpan) : SSFSpan :=
  let tags0 := s.Tags.getD []
  let name :=
    if s.Name = "" then
      match tagLookup "name" tags0 with
      | some v => v
      | none => s.Name
    else s.Name
  let tags1 := if s.Name = "" then tagErase "name" tags0 else tags0
  let metrics := s.Metrics.map fun m =>
    if m.sampleRate = 0 then { m with sampleRate := 1 } else m
  { s with Name := name, Tags := some tags1, Metrics := metrics }

/-- `ParseSSF(packet)`: get a scratch buffer from the pool, unmarshal
the packet, and (deferred on every path) reset the buffer and put it
back; on success return the normalized span. -/
def ParseSSF (um : List Nat → Except String SSFSpan) (pool : Pool)
    (packet : List Nat) : Except String Message × Pool :=
  let (_, pool') := poolGet pool
  match um packet with
  | .error e => (.error e, poolPut ⟨[]⟩ pool')
  | .ok span0 => (.ok ⟨normalize span0⟩, poolPut ⟨[]⟩ pool')

/-- The error taxonomy of the read path: a clean EOF at a frame
boundary, the three fatal framing errors, and a non-fatal parse
(deserialization) error. -/
inductive SSFError where
  | eof
  | framingErr (e : IOErr)
  | frameVersion (v : Nat)
  | frameLength (l : Nat)
  | parse (e : String)
deriving DecidableEq, Repr

/-- The tail of `ReadSSF` after the header was accepted: feed the
result of `readFrame` to `ParseSSF`, classifying a read failure as a
fatal framing I/O error. -/
def payloadStep (um : List Nat → Except String SSFSpan) (pool : Pool) :
    List Nat × Option IOErr × List ReadEvent →
      Except SSFError Message × Pool × List ReadEvent
  | (_, some e, rest) => (.error (.framingErr e), pool, rest)
  | (bts, none, rest) =>
    match ParseSSF um pool bts with
    | (.error e, pool') => (.error (.parse e), pool', rest)
    | (.ok msg, pool') => (.ok msg, pool', rest)

/-- The stage of `ReadSSF` that receives the result of the length-field
read: any failure there is a fatal framing I/O error; otherwise decode
the big-endian length, enforce `MaxSSFPacketLength`, and go on to the
payload. -/
def lengthStep (um : List Nat → Except String SSFSpan) (pool : Pool) :
    List Nat × Option IOErr × List ReadEvent →
      Except SSFError Message × Pool × List ReadEvent
  | (_, some e, rest2) => (.error (.framingErr e), pool, rest2)
  | (bs4, none, rest2) =>
    let length := beDecode bs4
    if length > MaxSSFPacketLength then
      (.error (.frameLength length), pool, rest2)
    else payloadStep um pool (readFrame rest2 length)

/-- The stage of `ReadSSF` that receives the result of the version-byte
read: a clean `io.EOF` passes through as-is, any other failure is a
fatal framing I/O error, a nonzero version byte is a fatal version
error, and otherwise the 4-byte length field is read. -/
def versionStep (um : List Nat → Except String SSFSpan) (pool : Pool) :
    List Nat × Option IOErr × List ReadEvent →
      Except SSFError Message × Pool × List ReadEvent
  | (_, some .eof, rest) => (.error .eof, pool, rest)
  | (_, some e, rest) => (.error (.framingErr e), pool, rest)
  | (bs, none, rest) =>
    let version := bs.getD 0 0
    if version ≠ version0 then (.error (.frameVersion version), pool, rest)
    else lengthStep um pool (readFull rest [] 4)

/-- `ReadSSF(in)`: read the version byte, check the version, read the
big-endian length, enforce the length bound, then read and parse the
payload (each later stage is a separate definition above, mirroring the
Go control flow). -/
def ReadSSF (um : List Nat → Except String SSFSpan) (pool : Pool)
    (events : List ReadEvent) :
    Except SSFError Message × Pool × List ReadEvent :=
  versionStep um pool (readFull events [] 1)

/-- One write event: the outcome the stream assigns to one `Write`
call (all requested bytes and no error, or `n` bytes then an error).
An exhausted event list accepts every write. -/
inductive WriteEvent where
  | ok
  | fail (n : Nat) (e : IOErr)
deriving DecidableEq, Repr

/-- The write-side state: the buffer pool, the bytes written to the
stream so far, and the pending write events. -/
structure WState where
  pool : Pool
  out : List Nat
  wevents : List WriteEvent
deriving DecidableEq, Repr

/-- One `out.Write(bs)` call against the write-event stream. -/
def writeCall (st : WState) (bs : List Nat) : Nat × Option IOErr × WState :=
  match st.wevents with
  | [] => (bs.length, none, { st with out := st.out ++ bs })
  | .ok :: rest =>
    (bs.length, none, { st with out := st.out ++ bs, wevents := rest })
  | .fail n e :: rest =>
    (min n bs.length, some e,
      { st with out := st.out ++ bs.take n, wevents := rest })

/-- The write path's error taxonomy: a non-framing serialization error,
or a fatal framing I/O error. -/
inductive WError where
  | encode (e : String)
  | framingErr (e : IOErr)
deriving DecidableEq, Repr

/-- The payload write of `WriteSSF`: any failure is a fatal framing
I/O error; the deferred reset-and-release of the scratch buffer runs on
both exit paths, so each branch pushes a reset buffer back onto the
pool.  On success the payload byte count is returned. -/
def writePayload (st3 : WState) (payload : List Nat) :
    (Nat × Option WError) × WState :=
  match writeCall st3 payload with
  | (n, some e, st4) =>
    ((n, some (.framingErr e)), { st4 with pool := poolPut ⟨[]⟩ st4.pool })
  | (n, none, st4) =>
    ((n, none), { st4 with pool := poolPut ⟨[]⟩ st4.pool })

/-- The length-field write of `WriteSSF` (32-bit big-endian, truncated
as by Go's `uint32(len(...))` conversion), then the payload write. -/
def writeLength (st2 : WState) (payload : List Nat) :
    (Nat × Option WError) × WState :=
  match writeCall st2 (be32 (payload.length % 2 ^ 32)) with
  | (_, some e, st3) =>
    ((0, some (.framingErr e)), { st3 with pool := poolPut ⟨[]⟩ st3.pool })
  | (_, none, st3) => writePayload st3 payload

/-- The frame-emitting tail of `WriteSSF`, entered only after a
successful marshal: write the version byte, then the length field,
then the payload. -/
def writeFrame (st1 : WState) (payload : List Nat) :
    (Nat × Option WError) × WState :=
  match writeCall st1 [version0] with
  | (_, some e, st2) =>
    ((0, some (.framingErr e)), { st2 with pool := poolPut ⟨[]⟩ st2.pool })
  | (_, none, st2) => writeLength st2 payload

/-- `WriteSSF(out, span)`: get a scratch buffer, marshal the span into
it (a failure returns immediately, before the release `defer` is even
registered, so the buffer is not returned to the pool); on success,
emit the frame via `writeFrame`. -/
def WriteSSF (marshal : SSFSpan → Except String (List Nat)) (st : WState)
    (s : SSFSpan) : (Nat × Option WError) × WState :=
  let (pbuf, pool') := poolGet st.pool
  let st1 := { st with pool := pool' }
  match marshal s with
  | .error e => ((0, some (.encode e)), st1)
  | .ok enc => writeFrame st1 (pbuf.buf ++ enc)

/-- Modelled from the spec: the `ssf` package's generated protobuf
codec (`proto.Buffer.Marshal` on an `ssf.SSFSpan`) is not under `src/`;
the spec only requires that the Message Encoder "serializes a Span
record into payload bytes" which the decoder inverts.  The model uses a
simple injective field-by-field encoding.  `encNat` encodes one
number. -/
def encNat (n : Nat) : List Nat := [n]

/-- Sequential decoder matching `encNat`. -/
def decNat : List Nat → Option (Nat × List Nat)
  | [] => none
  | b :: rest => some (b, rest)

/-- Modelled from the spec: integer field encoding (sign byte plus
magnitude). -/
def encInt : Int → List Nat
  | .ofNat n => [0, n]
  | .negSucc n => [1, n]

/-- Sequential decoder matching `encInt`. -/
def decInt : List Nat → Option (Int × List Nat)
  | 0 :: n :: rest => some (.ofNat n, rest)
  | 1 :: n :: rest => some (.negSucc n, rest)
  | _ => none

/-- Modelled from the spec: sample-rate field encoding (numerator then
denominator). -/
def encRat (q : Rat) : List Nat := encInt q.num ++ [q.den]

/-- Sequential decoder matching `encRat`. -/
def decRat (l : List Nat) : Option (Rat × List Nat) := do
  let (n, r) ← decInt l
  match r with
  | [] => none
  | d :: rest => some (mkRat n d, rest)

/-- Modelled from the spec: string field encoding, a character count
followed by the character codes. -/
def encString (s : String) : List Nat :=
  s.data.length :: s.data.map Char.toNat

/-- Sequential decoder matching `encString`. -/
def decString : List Nat → Option (String × List Nat)
  | [] => none
  | n :: rest =>
    if n ≤ rest.length then
      some (⟨(rest.take n).map Char.ofNat⟩, rest.drop n)
    else none

/-- Modelled from the spec: repeated-field encoding, an element count
followed by the element encodings. -/
def encList (enc : α → List Nat) (xs : List α) : List Nat :=
  xs.length :: xs.flatMap enc

/-- Decode `n` consecutive elements. -/
def decListN (dec : List Nat → Option (α × List Nat)) :
    Nat → List Nat → Option (List α × List Nat)
  | 0, l => some ([], l)
  | n + 1, l => do
    let (a, r) ← dec l
    let (as, r') ← decListN dec n r
    some (a :: as, r')

/-- Sequential decoder matching `encList`. -/
def decList (dec : List Nat → Option (α × List Nat)) :
    List Nat → Option (List α × List Nat)
  | [] => none
  | n :: rest => decListN dec n rest

/-- Modelled from the spec: one tag entry (key and value strings). -/
def encTag (p : String × String) : List Nat := encString p.1 ++ encString p.2

/-- Sequential decoder matching `encTag`. -/
def decTag (l : List Nat) : Option ((String × String) × List Nat) := do
  let (k, r) ← decString l
  let (v, r') ← decString r
  some ((k, v), r')

/-- Modelled from the spec: the `Tags` map field — absent (`nil` map)
or present with its entries. -/
def encTags : Option (List (String × String)) → List Nat
  | none => [0]
  | some l => 1 :: encList encTag l

/-- Sequential decoder matching `encTags`. -/
def decTags : List Nat → Option (Option (List (String × String)) × List Nat)
  | 0 :: rest => some (none, rest)
  | 1 :: rest => do
    let (l, r) ← decList decTag rest
    some (some l, r)
  | _ => none

/-- Modelled from the spec: one metric sample (name, value, sample
rate). -/
def encSample (m : SSFSample) : List Nat :=
  encString m.name ++ encInt m.value ++ encRat m.sampleRate

/-- Sequential decoder matching `encSample`. -/
def decSample (l : List Nat) : Option (SSFSample × List Nat) := do
  let (nm, r1) ← decString l
  let (v, r2) ← decInt r1
  let (q, r3) ← decRat r2
  some (⟨nm, v, q⟩, r3)

/-- Modelled from the spec: the span's field-by-field encoding. -/
def encodeSpan (s : SSFSpan) : List Nat :=
  encInt s.Id ++ encInt s.TraceId ++ encInt s.StartTimestamp ++
    encInt s.EndTimestamp ++ encString s.Name ++ encTags s.Tags ++
    encList encSample s.Metrics

/-- Sequential decoder matching `encodeSpan`. -/
def decodeSpan (l : List Nat) : Option (SSFSpan × List Nat) := do
  let (i, r1) ← decInt l
  let (t, r2) ← decInt r1
  let (st, r3) ← decInt r2
  let (en, r4) ← decInt r3
  let (nm, r5) ← decString r4
  let (tg, r6) ← decTags r5
  let (ms, r7) ← decList decSample r6
  some (⟨i, t, st, en, nm, tg, ms⟩, r7)

/-- Modelled from the spec: `pbuf.Marshal(span)`'s produced bytes. -/
def ssfMarshal (s : SSFSpan) : Except String (List Nat) :=
  .ok (encodeSpan s)

/-- Modelled from the spec: `scratchBuff.Unmarshal(span)`, requiring
the packet to be consumed exactly. -/
def ssfUnmarshal (packet : List Nat) : Except String SSFSpan :=
  match decodeSpan packet with
  | some (s, []) => .ok s
  | _ => .error "unmarshalling error"

/-- Split a produced byte string into the read events of a peer that
delivers the version byte, the length field, and the payload in three
reads. -/
def eventsOf (bytes : List Nat) : List ReadEvent :=
  [⟨bytes.take 1, none⟩, ⟨(bytes.drop 1).take 4, none⟩,
    ⟨bytes.drop 5, none⟩]

/-- A fresh write-side state: empty pool, nothing written, a stream
that accepts every write. -/
def cleanW : WState := ⟨[], [], []⟩

/-- A span whose encoding exceeds `MaxSSFPacketLength`: its name alone
is 16777300 characters. -/
def sBig : SSFSpan :=
  ⟨1, 1, 1, 1, ⟨List.replicate 16777300 (Char.ofNat 97)⟩, none, []⟩

/-- A small span exercising all three normalization rules, used to
instantiate round-trip and normalization theorems. -/
def spanBackfill : SSFSpan :=
  ⟨1, 1, 1, 1, "", some [("name", "foo"), ("host", "bar")], [⟨"m", 2, 0⟩]⟩

/-- A span that is already normalized. -/
def spanDone : SSFSpan :=
  ⟨1, 1, 1, 1, "n", some [("host", "b")], [⟨"m", 2, 1⟩]⟩

/-- A trace-valid span. -/
def spanOkTrace : SSFSpan := ⟨1, 2, 3, 4, "x", none, []⟩

/-- A span failing the trace-validity check (zero id). -/
def spanBadTrace : SSFSpan := ⟨0, 2, 3, 4, "x", none, []⟩

/-- A marshaller that always fails, for exercising the
serialization-failure paths. -/
def failMarshal : SSFSpan → Except String (List Nat) :=
  fun _ => .error "marshal failed"

/-- `ValidTrace(sample)`: a span is a valid trace iff its id, trace id
and both timestamps are nonzero. -/
def ValidTrace (sample : SSFSpan) : Bool :=
  true && (sample.Id != 0) && (sample.TraceId != 0)
    && (sample.StartTimestamp != 0) && (sample.EndTimestamp != 0)

/-- `Message.TraceSpan()`: the underlying span when it is a valid
trace, otherwise an `InvalidTrace` error carrying the span. -/
def TraceSpan (m : Message) : Except InvalidTrace SSFSpan :=
  if !ValidTrace m.span then .error ⟨m.span⟩ else .ok m.span

theorem decInt_enc (i : Int) (t : List Nat) : decInt (encInt i ++ t) = some (i, t) := by
  cases i <;> rfl

theorem decRat_enc (q : Rat) (t : List Nat) : decRat (encRat q ++ t) = some (q, t) := by
  simp [decRat, encRat, List.append_assoc, decInt_enc, Rat.mkRat_self]

theorem map_ofNat_toNat (l : List Char) : (l.map Char.toNat).map Char.ofNat = l := by
  induction l with
  | nil => rfl
  | cons c cs ih => simp [ih, Char.ofNat_toNat]

theorem decString_enc (s : String) (t : List Nat) :
    decString (encString s ++ t) = some (s, t) := by
  have hlen : s.data.length = (s.data.map Char.toNat).length :=
    (List.length_map _ _).symm
  simp only [encString, List.cons_append, decString]
  rw [if_pos (by simp), hlen, List.take_left, List.drop_left,
    map_ofNat_toNat]

theorem decListN_enc {α : Type} (enc : α → List Nat)
    (dec : List Nat → Option (α × List Nat))
    (hdec : ∀ x t, dec (enc x ++ t) = some (x, t)) (xs : List α) (t : List Nat) :
    decListN dec xs.length (xs.flatMap enc ++ t) = some (xs, t) := by
  induction xs with
  | nil => rfl
  | cons x xs ih =>
    simp only [List.length_cons, List.flatMap_cons, List.append_assoc, decListN,
      hdec, ih, Option.bind_eq_bind, Option.some_bind]

theorem decList_enc {α : Type} (enc : α → List Nat)
    (dec : List Nat → Option (α × List Nat))
    (hdec : ∀ x t, dec (enc x ++ t) = some (x, t)) (xs : List α) (t : List Nat) :
    decList dec (encList enc xs ++ t) = some (xs, t) := by
  simp only [encList, List.cons_append, decList]
  exact decListN_enc enc dec hdec xs t

theorem decTag_enc (p : String × String) (t : List Nat) :
    decTag (encTag p ++ t) = some (p, t) := by
  simp [decTag, encTag, List.append_assoc, decString_enc]

theorem decTags_enc (tg : Option (List (String × String))) (t : List Nat) :
    decTags (encTags tg ++ t) = some (tg, t) := by
  cases tg with
  | none => rfl
  | some l =>
    simp only [encTags, List.cons_append, decTags,
      decList_enc encTag decTag decTag_enc, Option.bind_eq_bind, Option.some_bind]

theorem decSample_enc (m : SSFSample) (t : List Nat) :
    decSample (encSample m ++ t) = some (m, t) := by
  simp [decSample, encSample, List.append_assoc, decString_enc, decInt_enc,
    decRat_enc]

theorem decodeSpan_enc (s : SSFSpan) (t : List Nat) :
    decodeSpan (encodeSpan s ++ t) = some (s, t) := by
  simp only [decodeSpan, encodeSpan, List.append_assoc, decInt_enc,
    decString_enc, decTags_enc, decList_enc encSample decSample decSample_enc,
    Option.bind_eq_bind, Option.some_bind]

theorem ssfUnmarshal_enc (s : SSFSpan) : ssfUnmarshal (encodeSpan s) = .ok s := by
  have h := decodeSpan_enc s []
  rw [List.append_nil] at h
  simp [ssfUnmarshal, h]

theorem readFull_exact (bs : List Nat) (rest : List ReadEvent) (n : Nat)
    (hn : 0 < n) (hlen : bs.length = n) :
    readFull (⟨bs, none⟩ :: rest) [] n = (bs, none, rest) := by
  subst hlen
  rw [readFull, if_neg (by simpa using hn.ne')]
  simp only [List.length_nil, Nat.sub_zero, List.nil_append, List.take_length]
  rw [readFull.eq_def, if_pos (le_refl _)]

theorem readFrameAux_exact (bs : List Nat) (rest : List ReadEvent) (L : Nat)
    (hlen : bs.length = L) :
    readFrameAux (⟨bs, none⟩ :: rest) L [] = (bs, none, rest) := by
  subst hlen
  rw [readFrameAux]
  simp only [List.length_nil, Nat.sub_zero, List.nil_append, List.take_length,
    if_pos rfl, if_true]

theorem beDecode_be32 (L : Nat) (h : L < 2 ^ 32) : beDecode (be32 L) = L := by
  simp only [beDecode, be32, List.foldl]
  omega

theorem be32_length (L : Nat) : (be32 L).length = 4 := rfl

theorem eventsOf_frame (L enc : List Nat) (h4 : L.length = 4) :
    eventsOf (0 :: (L ++ enc)) = [⟨[0], none⟩, ⟨L, none⟩, ⟨enc, none⟩] := by
  simp only [eventsOf, List.take_succ_cons, List.take_zero, List.drop_succ_cons,
    List.drop_zero]
  rw [← h4, List.take_left, List.drop_left]

theorem versionStep_none (um : List Nat → Except String SSFSpan) (pool : Pool)
    (bs : List Nat) (rest : List ReadEvent) :
    versionStep um pool (bs, none, rest) =
      if bs.getD 0 0 ≠ version0 then
        (.error (.frameVersion (bs.getD 0 0)), pool, rest)
      else lengthStep um pool (readFull rest [] 4) := rfl

theorem versionStep_eof (um : List Nat → Except String SSFSpan) (pool : Pool)
    (bs : List Nat) (rest : List ReadEvent) :
    versionStep um pool (bs, some .eof, rest) = (.error .eof, pool, rest) := rfl

theorem versionStep_err (um : List Nat → Except String SSFSpan) (pool : Pool)
    (bs : List Nat) (e : IOErr) (rest : List ReadEvent) (he : e ≠ .eof) :
    versionStep um pool (bs, some e, rest) =
      (.error (.framingErr e), pool, rest) := by
  cases e with
  | eof => exact absurd rfl he
  | unexpectedEOF => rfl
  | other m => rfl

theorem lengthStep_none (um : List Nat → Except String SSFSpan) (pool : Pool)
    (bs4 : List Nat) (rest2 : List ReadEvent) :
    lengthStep um pool (bs4, none, rest2) =
      if beDecode bs4 > MaxSSFPacketLength then
        (.error (.frameLength (beDecode bs4)), pool, rest2)
      else payloadStep um pool (readFrame rest2 (beDecode bs4)) := rfl

theorem lengthStep_err (um : List Nat → Except String SSFSpan) (pool : Pool)
    (bs4 : List Nat) (e : IOErr) (rest2 : List ReadEvent) :
    lengthStep um pool (bs4, some e, rest2) =
      (.error (.framingErr e), pool, rest2) := rfl

theorem payloadStep_none (um : List Nat → Except String SSFSpan) (pool : Pool)
    (bts : List Nat) (rest : List ReadEvent) :
    payloadStep um pool (bts, none, rest) =
      match ParseSSF um pool bts with
      | (.error e, pool') => (.error (.parse e), pool', rest)
      | (.ok msg, pool') => (.ok msg, pool', rest) := rfl

theorem payloadStep_err (um : List Nat → Except String SSFSpan) (pool : Pool)
    (bts : List Nat) (e : IOErr) (rest : List ReadEvent) :
    payloadStep um pool (bts, some e, rest) =
      (.error (.framingErr e), pool, rest) := rfl

theorem WriteSSF_ssf_clean (s : SSFSpan) :
    WriteSSF ssfMarshal cleanW s =
      (((encodeSpan s).length, none),
        ⟨[⟨[]⟩], 0 :: (be32 ((encodeSpan s).length % 2 ^ 32) ++ encodeSpan s),
          []⟩) := by
  simp [WriteSSF, writeFrame, writeLength, writePayload, ssfMarshal, cleanW,
    writeCall, poolGet, poolPut, version0]

theorem ReadSSF_frame_roundtrip (s : SSFSpan)
    (h : (encodeSpan s).length ≤ MaxSSFPacketLength) :
    ReadSSF ssfUnmarshal []
        (eventsOf (0 :: (be32 ((encodeSpan s).length % 2 ^ 32) ++ encodeSpan s))) =
      (.ok ⟨normalize s⟩, [⟨[]⟩], []) := by
  have hlt : (encodeSpan s).length < 2 ^ 32 := by
    have : MaxSSFPacketLength < 2 ^ 32 := by decide
    omega
  have hmod : (encodeSpan s).length % 2 ^ 32 = (encodeSpan s).length :=
    Nat.mod_eq_of_lt hlt
  rw [eventsOf_frame _ _ (be32_length _), ReadSSF,
    readFull_exact [0] _ 1 (by decide) rfl, versionStep_none,
    if_neg (by simp [version0]),
    readFull_exact (be32 _) _ 4 (by decide) (be32_length _), lengthStep_none,
    hmod, beDecode_be32 _ hlt, if_neg (by omega), readFrame,
    readFrameAux_exact _ _ _ rfl, payloadStep_none]
  simp [ParseSSF, poolGet, poolPut, ssfUnmarshal_enc s]

theorem writeCall_pool (st : WState) (bs : List Nat) :
    ((writeCall st bs).2.2).pool = st.pool := by
  rcases hw : st.wevents with _ | ⟨we, rest⟩
  · simp [writeCall, hw]
  · cases we <;> simp [writeCall, hw]

theorem writePayload_pool (st3 : WState) (payload : List Nat) :
    ((writePayload st3 payload).2).pool = poolPut ⟨[]⟩ st3.pool := by
  rw [writePayload]
  rcases hw : writeCall st3 payload with ⟨n, oe, st4⟩
  have h4 : st4.pool = st3.pool := by
    have h := writeCall_pool st3 payload
    rw [hw] at h
    exact h
  cases oe <;> simp [h4]

theorem writeLength_pool (st2 : WState) (payload : List Nat) :
    ((writeLength st2 payload).2).pool = poolPut ⟨[]⟩ st2.pool := by
  rw [writeLength]
  rcases hw : writeCall st2 (be32 (payload.length % 2 ^ 32)) with ⟨n, oe, st3⟩
  have h3 : st3.pool = st2.pool := by
    have h := writeCall_pool st2 (be32 (payload.length % 2 ^ 32))
    rw [hw] at h
    exact h
  cases oe <;> simp [writePayload_pool, h3]

theorem writeFrame_pool (st1 : WState) (payload : List Nat) :
    ((writeFrame st1 payload).2).pool = poolPut ⟨[]⟩ st1.pool := by
  rw [writeFrame]
  rcases hw : writeCall st1 [version0] with ⟨n, oe, st2⟩
  have h2 : st2.pool = st1.pool := by
    have h := writeCall_pool st1 [version0]
    rw [hw] at h
    exact h
  cases oe <;> simp [writeLength_pool, h2]

theorem tagLookup_erase (k : String) (tags : List (String × String)) :
    tagLookup k (tagErase k tags) = none := by
  induction tags with
  | nil => rfl
  | cons p rest ih =>
    by_cases hp : p.1 = k
    · simpa [tagErase, hp] using ih
    · simpa [tagErase, tagLookup, hp] using ih

theorem tagErase_of_lookup_none (k : String) (tags : List (String × String))
    (h : tagLookup k tags = none) : tagErase k tags = tags := by
  induction tags with
  | nil => rfl
  | cons p rest ih =>
    rw [tagLookup] at h
    by_cases hp : p.1 = k
    · rw [if_pos hp] at h
      exact absurd h (by simp)
    · rw [if_neg hp] at h
      simp only [tagErase, List.filter_cons]
      rw [if_pos (by simpa using hp)]
      simpa [tagErase] using ih h

theorem map_rate_id (ms : List SSFSample) (h : ∀ m ∈ ms, m.sampleRate ≠ 0) :
    (ms.map fun m =>
      if m.sampleRate = 0 then { m with sampleRate := 1 } else m) = ms := by
  induction ms with
  | nil => rfl
  | cons a as ih =>
    rw [List.map_cons, if_neg (h a (by simp)),
      ih (fun m hm => h m (by simp [hm]))]

/-- C3: a stream that yields zero bytes and end-of-stream at the very
start of a frame makes `ReadSSF` report the non-fatal plain `EOF`;
whereas any failure — end-of-stream included — while reading the 4-byte
length field after the version byte was consumed is reported as a fatal
`FramingIOError`. -/
theorem c3_clean_eof_vs_midheader (um : List Nat → Except String SSFSpan)
    (pool : Pool) :
    (∀ events rest, readFull events [] 1 = ([], some .eof, rest) →
      ReadSSF um pool events = (.error .eof, pool, rest)) ∧
    (∀ events rest bs4 e rest2, readFull events [] 1 = ([0], none, rest) →
      readFull rest [] 4 = (bs4, some e, rest2) →
      ReadSSF um pool events = (.error (.framingErr e), pool, rest2)) := by
  constructor
  · intro events rest h
    rw [ReadSSF, h, versionStep_eof]
  · intro events rest bs4 e rest2 h1 h2
    rw [ReadSSF, h1, versionStep_none, if_neg (by simp [version0]), h2,
      lengthStep_err]

/-- Witness for C3: an empty stream gives the clean `EOF`; a stream
closed after only 2 of the 5 header bytes gives `FramingIOError`. -/
theorem c3_witness :
    (readFull ([] : List ReadEvent) [] 1 = ([], some .eof, []) ∧
      ReadSSF ssfUnmarshal [] [] = (.error .eof, [], [])) ∧
    (readFull [⟨[0], none⟩, ⟨[9], some .eof⟩] [] 1 =
        ([0], none, [⟨[9], some .eof⟩]) ∧
      readFull [⟨[9], some .eof⟩] [] 4 = ([9], some .unexpectedEOF, []) ∧
      ReadSSF ssfUnmarshal [] [⟨[0], none⟩, ⟨[9], some .eof⟩] =
        (.error (.framingErr .unexpectedEOF), [], [])) :=
  ⟨⟨by rfl, (c3_clean_eof_vs_midheader ssfUnmarshal []).1 [] [] (by rfl)⟩,
    ⟨by rfl, by rfl,
      (c3_clean_eof_vs_midheader ssfUnmarshal []).2 _ _ _ _ _ (by rfl) (by rfl)⟩⟩

/-- C4: once the header declares a length `L`, `ReadSSF` reports a
fatal `FrameLengthError` without consuming any payload events when
`L > 16*1024*1024`, and proceeds to the payload read when
`L ≤ 16*1024*1024`. -/
theorem c4_frame_length_bound (um : List Nat → Except String SSFSpan)
    (pool : Pool) (events : List ReadEvent) (rest rest2 : List ReadEvent)
    (bs4 : List Nat) (h1 : readFull events [] 1 = ([0], none, rest))
    (h2 : readFull rest [] 4 = (bs4, none, rest2)) :
    (beDecode bs4 > MaxSSFPacketLength →
      ReadSSF um pool events =
        (.error (.frameLength (beDecode bs4)), pool, rest2)) ∧
    (beDecode bs4 ≤ MaxSSFPacketLength →
      ReadSSF um pool events =
        payloadStep um pool (readFrame rest2 (beDecode bs4))) := by
  have hbase : ReadSSF um pool events = lengthStep um pool (bs4, none, rest2) := by
    rw [ReadSSF, h1, versionStep_none, if_neg (by simp [version0]), h2]
  constructor
  · intro hgt
    rw [hbase, lengthStep_none, if_pos hgt]
  · intro hle
    rw [hbase, lengthStep_none, if_neg (by omega)]

/-- Witness for C4: a header declaring length 16777217 is rejected
with `FrameLengthError` and the payload event is left unconsumed. -/
theorem c4_witness :
    readFull [⟨[0], none⟩, ⟨[1, 0, 0, 1], none⟩, ⟨[7], none⟩] [] 1 =
      ([0], none, [⟨[1, 0, 0, 1], none⟩, ⟨[7], none⟩]) ∧
    readFull [⟨[1, 0, 0, 1], none⟩, ⟨[7], none⟩] [] 4 =
      ([1, 0, 0, 1], none, [⟨[7], none⟩]) ∧
    beDecode [1, 0, 0, 1] > MaxSSFPacketLength ∧
    ReadSSF ssfUnmarshal [] [⟨[0], none⟩, ⟨[1, 0, 0, 1], none⟩, ⟨[7], none⟩] =
      (.error (.frameLength 16777217), [], [⟨[7], none⟩]) :=
  ⟨by rfl, by rfl, by decide,
    (c4_frame_length_bound ssfUnmarshal []
      [⟨[0], none⟩, ⟨[1, 0, 0, 1], none⟩, ⟨[7], none⟩]
      [⟨[1, 0, 0, 1], none⟩, ⟨[7], none⟩] [⟨[7], none⟩] [1, 0, 0, 1]
      (by rfl) (by rfl)).1 (by decide)⟩

/-- C5: a stream whose first byte is nonzero makes `ReadSSF` report a
fatal `FrameVersionError` with only that byte consumed: the events that
would carry the length field and payload are returned unread. -/
theorem c5_frame_version_error (um : List Nat → Except String SSFSpan)
    (pool : Pool) (events rest : List ReadEvent) (v : Nat)
    (h : readFull events [] 1 = ([v], none, rest)) (hv : v ≠ 0) :
    ReadSSF um pool events = (.error (.frameVersion v), pool, rest) := by
  rw [ReadSSF, h, versionStep_none]
  simp [version0, hv]

/-- Witness for C5: first byte 5 yields `FrameVersionError 5` with the
rest of the stream unconsumed. -/
theorem c5_witness :
    readFull [⟨[5], none⟩, ⟨[1, 2, 3, 4], none⟩] [] 1 =
      ([5], none, [⟨[1, 2, 3, 4], none⟩]) ∧
    (5 : Nat) ≠ 0 ∧
    ReadSSF ssfUnmarshal [] [⟨[5], none⟩, ⟨[1, 2, 3, 4], none⟩] =
      (.error (.frameVersion 5), [], [⟨[1, 2, 3, 4], none⟩]) :=
  ⟨by rfl, by decide,
    c5_frame_version_error ssfUnmarshal [] _ _ 5 (by rfl) (by decide)⟩

/-- C10: in `readFrame`'s loop, an error reported by a read call wins
over the data that same call delivered: whatever bytes `bs` arrive
alongside the error (even enough to complete the frame) and whatever
was accumulated in `acc`, the loop returns an empty slice and the
error; `ReadSSF`'s payload stage then classifies it as a fatal
`FramingIOError`. -/
theorem c10_read_error_precedence (bs acc : List Nat) (e : IOErr)
    (rest : List ReadEvent) (length : Nat) :
    readFrameAux (⟨bs, some e⟩ :: rest) length acc = ([], some e, rest) ∧
    (∀ (um : List Nat → Except String SSFSpan) (pool : Pool) (bts : List Nat)
        (rest3 : List ReadEvent),
      payloadStep um pool (bts, some e, rest3) =
        (.error (.framingErr e), pool, rest3)) :=
  ⟨rfl, fun um pool bts rest3 => payloadStep_err um pool bts e rest3⟩

/-- C7: `TraceSpan` returns the underlying span exactly when id, trace
id and both timestamps are all nonzero (ordering of the timestamps is
irrelevant), and otherwise returns an `InvalidTrace` error carrying the
offending span. -/
theorem c7_trace_span (m : Message) :
    ((m.span.Id ≠ 0 ∧ m.span.TraceId ≠ 0 ∧ m.span.StartTimestamp ≠ 0 ∧
        m.span.EndTimestamp ≠ 0) → TraceSpan m = .ok m.span) ∧
    (¬(m.span.Id ≠ 0 ∧ m.span.TraceId ≠ 0 ∧ m.span.StartTimestamp ≠ 0 ∧
        m.span.EndTimestamp ≠ 0) → TraceSpan m = .error ⟨m.span⟩) := by
  constructor
  · intro h
    have hv : ValidTrace m.span = true := by
      simp only [ValidTrace, Bool.true_and, Bool.and_eq_true, bne_iff_ne, ne_eq]
      tauto
    simp [TraceSpan, hv]
  · intro h
    have hv : ValidTrace m.span = false := by
      rw [Bool.eq_false_iff]
      intro hc
      simp only [ValidTrace, Bool.true_and, Bool.and_eq_true, bne_iff_ne,
        ne_eq] at hc
      exact h (by tauto)
    simp [TraceSpan, hv]

/-- Witness for C7: a span with all four fields nonzero is returned;
a span with a zero id yields the `InvalidTrace` error wrapping it. -/
theorem c7_witness :
    ((spanOkTrace.Id ≠ 0 ∧ spanOkTrace.TraceId ≠ 0 ∧
        spanOkTrace.StartTimestamp ≠ 0 ∧ spanOkTrace.EndTimestamp ≠ 0) ∧
      TraceSpan ⟨spanOkTrace⟩ = .ok spanOkTrace) ∧
    (¬(spanBadTrace.Id ≠ 0 ∧ spanBadTrace.TraceId ≠ 0 ∧
        spanBadTrace.StartTimestamp ≠ 0 ∧ spanBadTrace.EndTimestamp ≠ 0) ∧
      TraceSpan ⟨spanBadTrace⟩ = .error ⟨spanBadTrace⟩) :=
  ⟨⟨by decide, (c7_trace_span ⟨spanOkTrace⟩).1 (by decide)⟩,
    ⟨by decide, (c7_trace_span ⟨spanBadTrace⟩).2 (by decide)⟩⟩

/-- C8: when serialization fails, `WriteSSF` returns byte count 0 with
the non-framing encode error, and the output stream is untouched (its
written bytes and its pending write events are unchanged). -/
theorem c8_encode_failure_stream_untouched
    (marshal : SSFSpan → Except String (List Nat)) (st : WState) (s : SSFSpan)
    (e : String) (h : marshal s = .error e) :
    (WriteSSF marshal st s).1 = (0, some (.encode e)) ∧
    (WriteSSF marshal st s).2.out = st.out ∧
    (WriteSSF marshal st s).2.wevents = st.wevents := by
  rcases hpg : poolGet st.pool with ⟨pbuf, pool'⟩
  refine ⟨?_, ?_, ?_⟩ <;> simp [WriteSSF, hpg, h]

/-- Witness for C8: a failing marshaller leaves the stream exactly as
it was. -/
theorem c8_witness :
    failMarshal spanOkTrace = .error "marshal failed" ∧
    (WriteSSF failMarshal ⟨[], [3], []⟩ spanOkTrace).1 =
      (0, some (.encode "marshal failed")) ∧
    (WriteSSF failMarshal ⟨[], [3], []⟩ spanOkTrace).2.out = [3] ∧
    (WriteSSF failMarshal ⟨[], [3], []⟩ spanOkTrace).2.wevents = [] :=
  ⟨rfl,
    (c8_encode_failure_stream_untouched failMarshal ⟨[], [3], []⟩ spanOkTrace
      "marshal failed" rfl).1,
    (c8_encode_failure_stream_untouched failMarshal ⟨[], [3], []⟩ spanOkTrace
      "marshal failed" rfl).2.1,
    (c8_encode_failure_stream_untouched failMarshal ⟨[], [3], []⟩ spanOkTrace
      "marshal failed" rfl).2.2⟩

/-- Counterexample to C1: with one (dirty) buffer in the pool and a
failing marshaller, `WriteSSF` returns with the pool empty — the
acquired scratch buffer was neither reset nor released back to the
pool, because the release `defer` is only registered after the
serialization error check. -/
theorem c1_counterexample :
    (WriteSSF failMarshal ⟨[⟨[7]⟩], [], []⟩ spanOkTrace).2.pool = [] ∧
    (PBuf.mk []) ∉ (WriteSSF failMarshal ⟨[⟨[7]⟩], [], []⟩ spanOkTrace).2.pool :=
  ⟨rfl, by decide⟩

/-- C1 (amended): on the serialization-failure path the scratch buffer
is dropped, not released — the pool is left exactly as it was after the
acquire; on every path where serialization succeeds (including write
failures) the buffer is reset and released back to the pool before
`WriteSSF` returns. -/
theorem c1_amended_buffer_discipline
    (marshal : SSFSpan → Except String (List Nat)) (st : WState) (s : SSFSpan) :
    (∀ e, marshal s = .error e →
      (WriteSSF marshal st s).2.pool = (poolGet st.pool).2) ∧
    (∀ enc, marshal s = .ok enc →
      (WriteSSF marshal st s).2.pool = poolPut ⟨[]⟩ (poolGet st.pool).2) := by
  rcases hpg : poolGet st.pool with ⟨pbuf, pool'⟩
  constructor
  · intro e he
    simp [WriteSSF, hpg, he]
  · intro enc he
    simp [WriteSSF, hpg, he, writeFrame_pool]

/-- Witness for C1 (amended): with one buffer pooled, a failing marshal
leaves the pool empty, while a successful marshal returns a reset
buffer to it — even though the acquired buffer was dirty. -/
theorem c1_amended_witness :
    (failMarshal spanOkTrace = .error "marshal failed" ∧
      (WriteSSF failMarshal ⟨[⟨[7]⟩], [], []⟩ spanOkTrace).2.pool =
        (poolGet [⟨[7]⟩]).2) ∧
    (ssfMarshal spanOkTrace = .ok (encodeSpan spanOkTrace) ∧
      (WriteSSF ssfMarshal ⟨[⟨[7]⟩], [], []⟩ spanOkTrace).2.pool =
        poolPut ⟨[]⟩ (poolGet [⟨[7]⟩]).2) :=
  ⟨⟨rfl,
      (c1_amended_buffer_discipline failMarshal ⟨[⟨[7]⟩], [], []⟩
        spanOkTrace).1 "marshal failed" rfl⟩,
    ⟨rfl,
      (c1_amended_buffer_discipline ssfMarshal ⟨[⟨[7]⟩], [], []⟩
        spanOkTrace).2 (encodeSpan spanOkTrace) rfl⟩⟩

/-- C9: normalization is idempotent — a span that already satisfies the
normalization postconditions (its tag map is present, no `"name"`
backfill applies, and no sample rate is zero) is left unchanged by the
normalization step. -/
theorem c9_normalize_idempotent (s : SSFSpan) (l : List (String × String))
    (htags : s.Tags = some l)
    (hname : s.Name = "" → tagLookup "name" l = none)
    (hrate : ∀ m ∈ s.Metrics, m.sampleRate ≠ 0) :
    normalize s = s := by
  obtain ⟨i, t, st, en, nm, tg, ms⟩ := s
  have h1 : tg = some l := htags
  subst h1
  have hrate' : ∀ m ∈ ms, m.sampleRate ≠ 0 := hrate
  by_cases hN : nm = ""
  · have hl : tagLookup "name" l = none := hname hN
    subst hN
    simp only [normalize, Option.getD_some, if_pos rfl, if_true, hl,
      tagErase_of_lookup_none _ _ hl, map_rate_id ms hrate']
  · simp only [normalize, Option.getD_some, if_neg hN, map_rate_id ms hrate']

/-- Witness for C9: an already-normalized span is a fixed point of
normalization. -/
theorem c9_witness :
    spanDone.Tags = some [("host", "b")] ∧
    (spanDone.Name = "" → tagLookup "name" [("host", "b")] = none) ∧
    (∀ m ∈ spanDone.Metrics, m.sampleRate ≠ 0) ∧
    normalize spanDone = spanDone :=
  ⟨rfl, by decide, by decide,
    c9_normalize_idempotent spanDone [("host", "b")] rfl (by decide) (by decide)⟩

/-- C6: on every successfully deserialized payload, `ParseSSF` returns
the normalized span, and the normalization postconditions hold: the
tag map is present; when the deserialized name was empty and a
`"name"` tag existed, the name is backfilled from it and the `"name"`
key is gone; every sample whose rate was zero now has rate 1, all
other samples are unchanged, and the scalar span fields are
untouched. -/
theorem c6_parse_normalization_postconditions
    (um : List Nat → Except String SSFSpan) (pool : Pool) (packet : List Nat)
    (span0 : SSFSpan) (h : um packet = .ok span0) :
    (ParseSSF um pool packet).1 = .ok ⟨normalize span0⟩ ∧
    (∃ l, (normalize span0).Tags = some l) ∧
    (span0.Name = "" → ∀ v, tagLookup "name" (span0.Tags.getD []) = some v →
      (normalize span0).Name = v ∧
      tagLookup "name" (((normalize span0).Tags).getD []) = none) ∧
    ((normalize span0).Id = span0.Id ∧
      (normalize span0).TraceId = span0.TraceId ∧
      (normalize span0).StartTimestamp = span0.StartTimestamp ∧
      (normalize span0).EndTimestamp = span0.EndTimestamp) ∧
    (normalize span0).Metrics.length = span0.Metrics.length ∧
    (∀ (i : Nat) (h1 : i < span0.Metrics.length)
        (h2 : i < (normalize span0).Metrics.length),
      ((span0.Metrics.get ⟨i, h1⟩).sampleRate = 0 →
        (normalize span0).Metrics.get ⟨i, h2⟩ =
          { span0.Metrics.get ⟨i, h1⟩ with sampleRate := 1 }) ∧
      ((span0.Metrics.get ⟨i, h1⟩).sampleRate ≠ 0 →
        (normalize span0).Metrics.get ⟨i, h2⟩ = span0.Metrics.get ⟨i, h1⟩)) := by
  have hmet : (normalize span0).Metrics = span0.Metrics.map fun m =>
      if m.sampleRate = 0 then { m with sampleRate := 1 } else m := rfl
  refine ⟨?_, ⟨_, rfl⟩, ?_, ⟨rfl, rfl, rfl, rfl⟩, ?_, ?_⟩
  · rcases hpg : poolGet pool with ⟨b, p⟩
    simp [ParseSSF, hpg, h]
  · intro hn v hv
    constructor
    · simp only [normalize, hn, if_pos rfl, if_true, hv]
    · simp only [normalize, hn, if_pos rfl, if_true, Option.getD_some]
      exact tagLookup_erase "name" (span0.Tags.getD [])
  · rw [hmet, List.length_map]
  · intro i h1 h2
    have hg : (normalize span0).Metrics.get ⟨i, h2⟩ =
        (fun m => if m.sampleRate = 0 then { m with sampleRate := 1 } else m)
          (span0.Metrics.get ⟨i, h1⟩) := by
      rw [List.get_of_eq hmet ⟨i, h2⟩, List.get_map]
    constructor
    · intro hz
      exact hg.trans (if_pos hz)
    · intro hz
      exact hg.trans (if_neg hz)

/-- Witness for C6: parsing a payload that deserializes to a span with
an empty name, a `"name"` tag, and a zero-rate sample satisfies all
postconditions. -/
theorem c6_witness :
    (fun _ : List Nat => (.ok spanBackfill : Except String SSFSpan)) [] =
      .ok spanBackfill ∧
    ((ParseSSF (fun _ => .ok spanBackfill) [] []).1 =
        .ok ⟨normalize spanBackfill⟩ ∧
      (∃ l, (normalize spanBackfill).Tags = some l) ∧
      (spanBackfill.Name = "" → ∀ v,
        tagLookup "name" (spanBackfill.Tags.getD []) = some v →
        (normalize spanBackfill).Name = v ∧
        tagLookup "name" (((normalize spanBackfill).Tags).getD []) = none) ∧
      ((normalize spanBackfill).Id = spanBackfill.Id ∧
        (normalize spanBackfill).TraceId = spanBackfill.TraceId ∧
        (normalize spanBackfill).StartTimestamp = spanBackfill.StartTimestamp ∧
        (normalize spanBackfill).EndTimestamp = spanBackfill.EndTimestamp) ∧
      (normalize spanBackfill).Metrics.length = spanBackfill.Metrics.length ∧
      (∀ (i : Nat) (h1 : i < spanBackfill.Metrics.length)
          (h2 : i < (normalize spanBackfill).Metrics.length),
        ((spanBackfill.Metrics.get ⟨i, h1⟩).sampleRate = 0 →
          (normalize spanBackfill).Metrics.get ⟨i, h2⟩ =
            { spanBackfill.Metrics.get ⟨i, h1⟩ with sampleRate := 1 }) ∧
        ((spanBackfill.Metrics.get ⟨i, h1⟩).sampleRate ≠ 0 →
          (normalize spanBackfill).Metrics.get ⟨i, h2⟩ =
            spanBackfill.Metrics.get ⟨i, h1⟩))) :=
  ⟨rfl, c6_parse_normalization_postconditions (fun _ => .ok spanBackfill) [] []
    spanBackfill rfl⟩

theorem encInt_length (i : Int) : (encInt i).length = 2 := by
  cases i <;> rfl

theorem encString_length (s : String) :
    (encString s).length = s.data.length + 1 := by
  simp [encString]

theorem encodeSpan_sBig_len : (encodeSpan sBig).length = 16777311 := by
  have h1 : (encTags sBig.Tags).length = 1 := rfl
  have h2 : (encList encSample sBig.Metrics).length = 1 := rfl
  have h3 : sBig.Name.data.length = 16777300 := by
    show (List.replicate 16777300 (Char.ofNat 97)).length = 16777300
    exact List.length_replicate _ _
  rw [encodeSpan]
  simp only [List.length_append, encInt_length, encString_length, h1, h2, h3]

/-- Counterexample to C2: the span `sBig` serializes successfully (its
payload is 16777311 bytes) and `WriteSSF` emits the whole frame, but
reading the produced bytes back fails with `FrameLengthError` instead
of returning the normalized span, because the 16MB bound is enforced
only on the read path. -/
theorem c2_counterexample :
    (WriteSSF ssfMarshal cleanW sBig).1.2 = none ∧
    (ReadSSF ssfUnmarshal []
        (eventsOf ((WriteSSF ssfMarshal cleanW sBig).2.out))).1 =
      .error (.frameLength 16777311) := by
  constructor
  · rw [WriteSSF_ssf_clean]
  · have hout : (WriteSSF ssfMarshal cleanW sBig).2.out =
        0 :: (be32 ((encodeSpan sBig).length % 2 ^ 32) ++ encodeSpan sBig) := by
      rw [WriteSSF_ssf_clean]
    rw [hout, encodeSpan_sBig_len,
      show (16777311 : Nat) % 2 ^ 32 = 16777311 from Nat.mod_eq_of_lt (by norm_num),
      eventsOf_frame _ _ (be32_length _), ReadSSF,
      readFull_exact [0] _ 1 (by decide) rfl, versionStep_none,
      if_neg (by simp [version0]),
      readFull_exact (be32 _) _ 4 (by decide) (be32_length _), lengthStep_none,
      beDecode_be32 16777311 (by norm_num), if_pos (by decide)]

/-- C2 (amended): for every span whose serialized payload fits in
`MaxSSFPacketLength`, writing it with `WriteSSF` (from a clean state)
succeeds, reading the produced bytes with `ReadSSF` yields the
original span with the three normalization rules applied, and decoding
is deterministic — `ParseSSF`'s result does not depend on the pool
state, so identical bytes always decode identically. -/
theorem c2_roundtrip_amended (s : SSFSpan)
    (h : (encodeSpan s).length ≤ MaxSSFPacketLength) :
    (WriteSSF ssfMarshal cleanW s).1 = ((encodeSpan s).length, none) ∧
    (ReadSSF ssfUnmarshal []
        (eventsOf ((WriteSSF ssfMarshal cleanW s).2.out))).1 =
      .ok ⟨normalize s⟩ ∧
    (∀ (um : List Nat → Except String SSFSpan) (pool1 pool2 : Pool)
        (packet : List Nat),
      (ParseSSF um pool1 packet).1 = (ParseSSF um pool2 packet).1) := by
  refine ⟨by rw [WriteSSF_ssf_clean], ?_, ?_⟩
  · have hout : (WriteSSF ssfMarshal cleanW s).2.out =
        0 :: (be32 ((encodeSpan s).length % 2 ^ 32) ++ encodeSpan s) := by
      rw [WriteSSF_ssf_clean]
    rw [hout, ReadSSF_frame_roundtrip s h]
  · intro um pool1 pool2 packet
    rcases h1 : poolGet pool1 with ⟨b1, p1⟩
    rcases h2 : poolGet pool2 with ⟨b2, p2⟩
    cases hu : um packet <;> simp [ParseSSF, h1, h2, hu]

/-- Witness for C2 (amended): a small span exercising all three
normalization rules round-trips through write-then-read. -/
theorem c2_witness :
    (encodeSpan spanBackfill).length ≤ MaxSSFPacketLength ∧
    ((WriteSSF ssfMarshal cleanW spanBackfill).1 =
        ((encodeSpan spanBackfill).length, none) ∧
      (ReadSSF ssfUnmarshal []
          (eventsOf ((WriteSSF ssfMarshal cleanW spanBackfill).2.out))).1 =
        .ok ⟨normalize spanBackfill⟩ ∧
      (∀ (um : List Nat → Except String SSFSpan) (pool1 pool2 : Pool)
          (packet : List Nat),
        (ParseSSF um pool1 packet).1 = (ParseSSF um pool2 packet).1)) :=
  ⟨by decide, c2_roundtrip_amended spanBackfill (by decide)⟩

end Wire
